import Mathlib

/-!
Shallow embedding of `trollflow_sat/satpy_writer.py` (the `DataWriter`
worker and its `DataWriterContainer` supervisor).

The worker drains a queue of work items.  A data item stages deferred
writes (`scene.save_datasets(..., compute=False)` appended to `self.data`)
and records pending notification messages (`self.messages`).  A `None`
sentinel flushes: `compute_writer_results(self.data)` executes the batch,
the recorded messages are published, and both lists are cleared.

External collaborators (`utils.create_fnames`, `utils.get_writer_names`,
`utils.select_dict_items`, `os.path.basename`, `os.path.abspath`,
`trollsift.compose`, the satpy write delegate) are modelled as opaque
pure functions gathered in an `Env` record, plus a flag for whether the
delegate's `compute_writer_results` call raises.  Python exceptions that
the worker itself can hit (`KeyError`, `IndexError`, a write failure)
are modelled with an explicit error component; the run loop stops at the
first uncaught error, as the real loop's exception would propagate out
of `run`.
-/

namespace SatpyWriter

/-- The spatial-area object possibly found under the `"area"` attribute of a
scene entry; carries the five attributes `_process` reads. -/
structure AreaAttrs where
  name : String
  area_id : String
  proj_id : String
  proj4_string : String
  x_size : Nat
  y_size : Nat
  deriving Repr, DecidableEq

/-- Python values appearing in metadata dictionaries and message payloads.
`pyShape x y` is the `(x_size, y_size)` tuple; `pyAreaD a` is the nested
area dictionary built from `a` (see `areaDict`), kept unexpanded to avoid a
nested-dictionary value type. -/
inductive PyVal where
  | pyNone : PyVal
  | pyInt (n : Int) : PyVal
  | pyStr (s : String) : PyVal
  | pyShape (x y : Nat) : PyVal
  | pyAreaD (a : AreaAttrs) : PyVal
  deriving Repr, DecidableEq

/-- String-keyed Python dictionaries, as association lists. -/
abbrev Dict := List (String × PyVal)

/-- First-match association-list lookup: `d[k]` returning `none` on `KeyError`. -/
def lookupA : Dict → String → Option PyVal
  | [], _ => none
  | (k, v) :: rest, key => if k = key then some v else lookupA rest key

/-- Python `d.update(fix)` as far as lookups are concerned: entries of `fix` win. -/
def dictUpdate (d fix : Dict) : Dict := fix ++ d

/-- The area-data dictionary built in `_process` (lines 221-227). -/
def areaDict (a : AreaAttrs) : Dict :=
  [("name", .pyStr a.name),
   ("area_id", .pyStr a.area_id),
   ("proj_id", .pyStr a.proj_id),
   ("proj4", .pyStr a.proj4_string),
   ("shape", .pyShape a.x_size a.y_size)]

/-- One dataset of a scene: `lcl[prod]`.  `area = none` models
`lcl[prod].attrs.get("area")` yielding `None` (or an object whose area
attributes are missing), so that reading `.name` etc. raises
`AttributeError` (line 228). -/
structure SceneEntry where
  area : Option AreaAttrs
  deriving Repr, DecidableEq

/-- A scene: its `attrs` metadata and its composites (`lcl.keys()` names each
paired with the dataset `lcl[name]`). -/
structure Scene where
  attrs : Dict
  composites : List (String × SceneEntry)
  deriving Repr, DecidableEq

/-- Opaque per-product configuration handed through to the templating and
writer-selection collaborators. -/
abbrev ProductConfig := String

/-- Payload of a data work item: `data['scene']` and the
`data['extra_metadata']` fields `_process` reads. -/
structure DataPayload where
  scene : Scene
  product_config : ProductConfig
  products : List String
  deriving Repr, DecidableEq

/-- A queue work item: a data item, or the `None` end-of-batch sentinel. -/
inductive WorkItem where
  | dataItem (d : DataPayload) : WorkItem
  | endOfBatch : WorkItem
  deriving Repr, DecidableEq

/-- The payload value stored under `"area"` (line 240):
`try area_data = {...} except AttributeError: area_data = None`
(lines 220-229) yields the area dictionary, or `None` when the `"area"`
attribute is missing so reading its fields raises `AttributeError`. -/
def areaVal : Option AreaAttrs → PyVal
  | none => .pyNone
  | some a => .pyAreaD a

/-- A deferred write handle: the arguments of the staged
`lcl.save_datasets(datasets=[prod], file_pattern=fname, writer=writers[j],
compute=False, **kwargs)` call (lines 212-216). -/
structure DeferredWrite where
  datasets : List String
  file_pattern : String
  writer : String
  compute : Bool
  options : Dict
  deriving Repr, DecidableEq

/-- A pending notification message: `Message(topic, "file", to_send)` where
`topic = compose(template, composeArgs)` (lines 245-254).  The call to the
external `compose` is kept symbolic as the pair (template, arguments). -/
structure Msg where
  template : String
  composeArgs : Dict
  kind : String
  payload : Dict
  deriving Repr, DecidableEq

/-- Python exceptions the worker can hit uncaught. -/
inductive PyErr where
  | keyError (k : String) : PyErr
  | indexError : PyErr
  | writeError : PyErr
  deriving Repr, DecidableEq

/-- External collaborators of the worker, and the delegate's behaviour. -/
structure Env where
  /-- The call `utils.create_fnames(scn_metadata, product_config, prod)` →
  `(fnames, productname)`. -/
  createFnames : Dict → ProductConfig → String → List String × String
  /-- The call `utils.get_writer_names(product_config, prod, scn_metadata["area_id"])`. -/
  getWriterNames : ProductConfig → String → PyVal → List String
  /-- The call `utils.select_dict_items(scn_metadata, publish_vars)`. -/
  selectDictItems : Dict → List (String × String) → Dict
  /-- The function `os.path.basename`. -/
  basename : String → String
  /-- The function `os.path.abspath`. -/
  abspath : String → String
  /-- Whether `compute_writer_results` raises (a write failure). -/
  writeFails : Bool

/-- Configuration of a `DataWriter` as set up in `__init__` and `run`. -/
structure WriterCfg where
  topic : Option String
  prev_lock : Option String
  save_settings : Dict
  publish_vars : List (String × String)

/-- The batch accumulator: `self.data` and `self.messages`. -/
structure WState where
  data : List DeferredWrite
  messages : List Msg
  deriving Repr, DecidableEq

/-- State after `self.data = []` and `self.messages = []` in `__init__`
(lines 124-125). -/
def initState : WState := ⟨[], []⟩

/-- Observable actions of one run: lock handoff, delegate calls, publishes. -/
inductive Event where
  | acquire (l : String) : Event
  | release (l : String) : Event
  | stage (w : DeferredWrite) : Event
  | executeAll (ws : List DeferredWrite) : Event
  | send (m : Msg) : Event
  deriving Repr, DecidableEq

/-- The `kwargs` dictionary built at the top of `run` (lines 131-141): each
recognized option read with `save_settings.get`, `compression` defaulting
to `6` and the rest to `None`. -/
def mkKwargs (s : Dict) : Dict :=
  [("compression", (lookupA s "compression").getD (.pyInt 6)),
   ("tags", (lookupA s "tags").getD .pyNone),
   ("fformat", (lookupA s "fformat").getD .pyNone),
   ("gdal_options", (lookupA s "gdal_options").getD .pyNone),
   ("blocksize", (lookupA s "blocksize").getD .pyNone)]

/-- First `to_send = select_dict_items(...)` then `to_send.update(to_send_fix)`
(lines 233-243): the merged payload, fixed fields winning. -/
def buildPayload (env : Env) (publish_vars : List (String × String))
    (scnMeta : Dict) (areaData : Option AreaAttrs) (fname productname : String)
    (startTime : PyVal) : Dict :=
  dictUpdate (env.selectDictItems scnMeta publish_vars)
    [("nominal_time", startTime),
     ("uid", .pyStr (env.basename fname)),
     ("uri", .pyStr (env.abspath fname)),
     ("area", areaVal areaData),
     ("productname", .pyStr productname)]

/-- The topic-composition argument (lines 245-251): the area dictionary when
present, otherwise the fallback `{'area_id': 'satproj'}`. -/
def composeArgOf : Option AreaAttrs → Dict
  | some a => areaDict a
  | none => [("area_id", .pyStr "satproj")]

/-- Body of the inner `for j, fname` loop (lines 211-254) for one filename:
stage the deferred write, then build the pending message (when a topic is
configured).  On error the writes staged before the error are returned on
the error side, matching in-place mutation of `self.data`. -/
def stageOne (env : Env) (kwargs : Dict) (publish_vars : List (String × String))
    (topic : Option String) (scnMeta : Dict) (entry : SceneEntry)
    (prod productname : String) (writers : List String) (j : Nat)
    (fname : String) : Except (List DeferredWrite × PyErr) (DeferredWrite × Option Msg) :=
  match writers.get? j with
  | none => .error ([], .indexError)
  | some w =>
    let dw : DeferredWrite := ⟨[prod], fname, w, false, kwargs⟩
    let areaData := entry.area
    match lookupA scnMeta "start_time" with
    | none => .error ([dw], .keyError "start_time")
    | some st =>
      let payload := buildPayload env publish_vars scnMeta areaData fname productname st
      match topic with
      | none => .ok (dw, none)
      | some t => .ok (dw, some ⟨t, composeArgOf areaData, "file", payload⟩)

/-- The inner `for j, fname in enumerate(fnames)` loop: accumulate the staged
writes and messages, stopping at the first uncaught exception. -/
def stagePairs (env : Env) (kwargs : Dict) (publish_vars : List (String × String))
    (topic : Option String) (scnMeta : Dict) (entry : SceneEntry)
    (prod productname : String) (writers : List String) :
    List String → Nat → List DeferredWrite × List Msg × Option PyErr
  | [], _ => ([], [], none)
  | fname :: rest, j =>
    match stageOne env kwargs publish_vars topic scnMeta entry prod productname
        writers j fname with
    | .error (dws, e) => (dws, [], some e)
    | .ok (dw, mo) =>
      match stagePairs env kwargs publish_vars topic scnMeta entry prod productname
          writers rest (j + 1) with
      | (rw, rm, re) => (dw :: rw, mo.toList ++ rm, re)

/-- The outer `for i, prod in enumerate(products)` loop of `_process`
(lines 198-254): skip products absent from the scene, otherwise derive
filenames and writers and run the inner loop. -/
def processProds (env : Env) (kwargs : Dict) (publish_vars : List (String × String))
    (topic : Option String) (scene : Scene) (scnMeta : Dict)
    (pcfg : ProductConfig) : List String → List DeferredWrite × List Msg × Option PyErr
  | [] => ([], [], none)
  | prod :: rest =>
    if (scene.composites.map Prod.fst).contains prod then
      let fp := env.createFnames scnMeta pcfg prod
      match lookupA scnMeta "area_id" with
      | none => ([], [], some (.keyError "area_id"))
      | some aid =>
        match stagePairs env kwargs publish_vars topic scnMeta
            ((scene.composites.lookup prod).getD ⟨none⟩) prod fp.2
            (env.getWriterNames pcfg prod aid) fp.1 0 with
        | (ws, ms, some err) => (ws, ms, some err)
        | (ws, ms, none) =>
          match processProds env kwargs publish_vars topic scene scnMeta pcfg rest with
          | (rw, rm, re) => (ws ++ rw, ms ++ rm, re)
    else
      processProds env kwargs publish_vars topic scene scnMeta pcfg rest

/-- Embeds `DataWriter._process` (lines 186-254): the new deferred writes and
pending messages appended to the accumulator, plus the first uncaught
exception if one occurred. -/
def processItem (env : Env) (kwargs : Dict) (publish_vars : List (String × String))
    (topic : Option String) (d : DataPayload) :
    List DeferredWrite × List Msg × Option PyErr :=
  processProds env kwargs publish_vars topic d.scene d.scene.attrs
    d.product_config d.products

/-- Emits `[Event.acquire l]` when a previous-worker lock is configured. -/
def lockAcq (cfg : WriterCfg) : List Event :=
  match cfg.prev_lock with
  | some l => [.acquire l]
  | none => []

/-- Emits `[Event.release l]` when a previous-worker lock is configured. -/
def lockRel (cfg : WriterCfg) : List Event :=
  match cfg.prev_lock with
  | some l => [.release l]
  | none => []

/-- One iteration of the `while self._loop` body after a successful
`queue.get` (lines 150-182): acquire the previous worker's lock, dispatch on
the item, and — only if no exception escaped the dispatch — release the
lock.  Returns the new accumulator state, the events of the iteration, and
the uncaught exception if any. -/
def runIteration (env : Env) (cfg : WriterCfg) (kwargs : Dict) (st : WState) :
    WorkItem → WState × List Event × Option PyErr
  | .endOfBatch =>
    if st.data.isEmpty then
      (⟨[], []⟩, lockAcq cfg ++ lockRel cfg, none)
    else if env.writeFails then
      (st, lockAcq cfg ++ [.executeAll st.data], some .writeError)
    else
      (⟨[], []⟩,
       lockAcq cfg ++ .executeAll st.data :: st.messages.map .send ++ lockRel cfg,
       none)
  | .dataItem d =>
    match processItem env kwargs cfg.publish_vars cfg.topic d with
    | (nw, nm, some err) =>
      (⟨st.data ++ nw, st.messages ++ nm⟩, lockAcq cfg ++ nw.map .stage, some err)
    | (nw, nm, none) =>
      (⟨st.data ++ nw, st.messages ++ nm⟩,
       lockAcq cfg ++ nw.map .stage ++ lockRel cfg, none)

/-- The worker loop over a sequence of successfully popped items, stopping at
the first uncaught exception (which in the real `run` propagates out of the
thread). -/
def runLoop (env : Env) (cfg : WriterCfg) (kwargs : Dict) :
    WState → List WorkItem → WState × List Event × Option PyErr
  | st, [] => (st, [], none)
  | st, it :: rest =>
    match runIteration env cfg kwargs st it with
    | (st', evs, some err) => (st', evs, some err)
    | (st', evs, none) =>
      match runLoop env cfg kwargs st' rest with
      | (st'', evs', e') => (st'', evs ++ evs', e')

/-- Embeds `DataWriter.run` on a stream of popped items: parse the save settings
into `kwargs` once, then drain, starting from the accumulator state of
`__init__`. -/
def runWriter (env : Env) (cfg : WriterCfg) (items : List WorkItem) :
    WState × List Event × Option PyErr :=
  runLoop env cfg (mkKwargs cfg.save_settings) initState items

/-- The `DataWriterContainer` state relevant to the `prev_lock` property:
the `use_lock` flag, the container's stored lock, and the running writer's
`prev_lock` field. -/
structure Container where
  use_lock : Bool
  container_lock : Option String
  writer_prev_lock : Option String
  deriving Repr, DecidableEq

/-- Embeds `DataWriterContainer.__init__` (lines 23-51): `_prev_lock` has the
class-level default `None`, and `_init_writer` constructs the writer with
`prev_lock=self._prev_lock`. -/
def mkContainer (use_lock : Bool) : Container :=
  ⟨use_lock, none, none⟩

/-- The `prev_lock` setter (lines 69-74): assign both references only when
`use_lock` is set. -/
def setPrevLock (c : Container) (lock : Option String) : Container :=
  if c.use_lock then { c with container_lock := lock, writer_prev_lock := lock }
  else c

/-- Count events satisfying a predicate. -/
def countEv (p : Event → Bool) (evs : List Event) : Nat :=
  (evs.filter p).length

/-- Is an event a `send`? -/
def isSend : Event → Bool
  | .send _ => true
  | _ => false

/-- Is an event a `stage`? -/
def isStage : Event → Bool
  | .stage _ => true
  | _ => false

/-- Is an event an `acquire`? -/
def isAcquire : Event → Bool
  | .acquire _ => true
  | _ => false

/-- Is an event a `release`? -/
def isRelease : Event → Bool
  | .release _ => true
  | _ => false

/-- Scans a trace: `true` iff no `send` occurs before the first
`executeAll`. -/
def noSendBeforeExec : List Event → Bool
  | [] => true
  | .send _ :: _ => false
  | .executeAll _ :: _ => true
  | _ :: rest => noSendBeforeExec rest

/-! ### Concrete instances for witnesses and counterexamples -/

/-- A concrete environment: one filename per product, one writer, empty
metadata selection, identity path functions, delegate succeeding. -/
def env0 : Env :=
  { createFnames := fun _ _ p => (["/data/" ++ p ++ ".tif"], p),
    getWriterNames := fun _ _ _ => ["geotiff"],
    selectDictItems := fun _ _ => [],
    basename := fun s => s,
    abspath := fun s => s,
    writeFails := false }

/-- A concrete scene holding one composite `"A"` without area attributes. -/
def sceneA : Scene :=
  ⟨[("start_time", .pyStr "t0"), ("area_id", .pyStr "euro")], [("A", ⟨none⟩)]⟩

/-- A data item requesting product `"A"` of `sceneA`. -/
def dA : DataPayload := ⟨sceneA, "pc", ["A"]⟩

/-- A data item requesting product `"B"`, absent from `sceneA`. -/
def dB : DataPayload := ⟨sceneA, "pc", ["B"]⟩

/-- A concrete writer configuration with a topic template and a lock. -/
def cfg0 : WriterCfg := ⟨some "tpl/{area_id}", some "L", [], []⟩

/-- The deferred write staged for product `"A"` of `sceneA` under `env0`
with the default `kwargs`. -/
def dw0 : DeferredWrite := ⟨["A"], "/data/A.tif", "geotiff", false, mkKwargs []⟩

/-- The pending message recorded for product `"A"` of `sceneA` under `env0`
and `cfg0`. -/
def msg0 : Msg :=
  ⟨"tpl/{area_id}", [("area_id", .pyStr "satproj")], "file",
   [("nominal_time", .pyStr "t0"),
    ("uid", .pyStr "/data/A.tif"),
    ("uri", .pyStr "/data/A.tif"),
    ("area", .pyNone),
    ("productname", .pyStr "A")]⟩

/-! ### Helper lemmas -/

theorem countEv_append (p : Event → Bool) (a b : List Event) :
    countEv p (a ++ b) = countEv p a + countEv p b := by
  simp [countEv, List.countP_append]

theorem countEv_cons (p : Event → Bool) (e : Event) (l : List Event) :
    countEv p (e :: l) = countEv p l + (if p e then 1 else 0) := by
  cases hpe : p e <;> simp [countEv, List.filter_cons, hpe]

theorem countEv_map_stage (p : Event → Bool) (hp : ∀ w, p (.stage w) = false)
    (ws : List DeferredWrite) : countEv p (ws.map .stage) = 0 := by
  induction ws with
  | nil => rfl
  | cons w rest ih => simp [countEv, List.countP_cons, hp] at ih ⊢; try simp [ih]

theorem countEv_map_send (p : Event → Bool) (hp : ∀ m, p (.send m) = false)
    (ms : List Msg) : countEv p (ms.map .send) = 0 := by
  induction ms with
  | nil => rfl
  | cons m rest ih => simp [countEv, List.countP_cons, hp] at ih ⊢; try simp [ih]

theorem lockAcq_none (cfg : WriterCfg) :
    lockAcq { cfg with prev_lock := none } = [] := rfl

theorem lockRel_none (cfg : WriterCfg) :
    lockRel { cfg with prev_lock := none } = [] := rfl

/-- The accumulator after a data-item iteration is the old accumulator with
the new writes and messages appended, whether or not processing raised. -/
theorem runIteration_dataItem_state (env : Env) (cfg : WriterCfg) (kw : Dict)
    (st : WState) (d : DataPayload) :
    (runIteration env cfg kw st (.dataItem d)).1 =
      ⟨st.data ++ (processItem env kw cfg.publish_vars cfg.topic d).1,
       st.messages ++ (processItem env kw cfg.publish_vars cfg.topic d).2.1⟩ := by
  rcases hp : processItem env kw cfg.publish_vars cfg.topic d with ⟨nw, nm, e⟩
  cases e <;> simp [runIteration, hp]

/-- With no previous-worker lock configured, an iteration's trace counts
zero events of any kind that is not a stage, execute or send. -/
theorem runIteration_no_lock_events (env : Env) (cfg : WriterCfg) (kw : Dict)
    (st : WState) (it : WorkItem) (p : Event → Bool)
    (hs : ∀ w, p (.stage w) = false) (he : ∀ ws, p (.executeAll ws) = false)
    (hm : ∀ m, p (.send m) = false) :
    countEv p (runIteration env { cfg with prev_lock := none } kw st it).2.1 = 0 := by
  cases it with
  | endOfBatch =>
      cases h1 : st.data.isEmpty with
      | true => simp [runIteration, h1, lockAcq, lockRel, countEv]
      | false =>
          cases h2 : env.writeFails with
          | true =>
              simp [runIteration, h1, h2, lockAcq, lockRel, countEv,
                List.countP_cons, he]
          | false =>
              simp [runIteration, h1, h2, lockAcq, lockRel, countEv,
                List.countP_cons, List.countP_append, he]
              simpa [countEv] using countEv_map_send p hm st.messages
  | dataItem d =>
      rcases hp : processItem env kw cfg.publish_vars cfg.topic d with ⟨nw, nm, e⟩
      cases e <;>
        simp [runIteration, hp, lockAcq, lockRel, countEv, List.countP_append] <;>
        simpa [countEv] using countEv_map_stage p hs nw

/-- With no previous-worker lock configured, a whole run's trace counts zero
such events. -/
theorem runLoop_no_lock_events (env : Env) (cfg : WriterCfg) (kw : Dict)
    (p : Event → Bool)
    (hs : ∀ w, p (.stage w) = false) (he : ∀ ws, p (.executeAll ws) = false)
    (hm : ∀ m, p (.send m) = false) :
    ∀ (items : List WorkItem) (st : WState),
      countEv p (runLoop env { cfg with prev_lock := none } kw st items).2.1 = 0 := by
  intro items
  induction items with
  | nil => intro st; rfl
  | cons it rest ih =>
      intro st
      rcases hI : runIteration env { cfg with prev_lock := none } kw st it
        with ⟨st', evs, e⟩
      have h0 : countEv p evs = 0 := by
        have h' := runIteration_no_lock_events env cfg kw st it p hs he hm
        rw [hI] at h'; exact h'
      cases e with
      | some err => simp [runLoop, hI, h0]
      | none =>
          rcases hR : runLoop env { cfg with prev_lock := none } kw st' rest
            with ⟨st'', evs', e'⟩
          have h1 := ih st'
          rw [hR] at h1
          simp [runLoop, hI, hR, countEv_append, h0, h1]

/-- C1: the spec requires the previous worker's lock to be released on every
exit path of an iteration, including when the batch write raises; the code
contradicts this (and the spec's own §7 calls the code's behaviour a defect
to fix): with a lock configured and `compute_writer_results` raising at
flush, the run acquires the lock twice but releases it once, ending on the
failing `executeAll` with no release after it. -/
theorem flush_failure_skips_lock_release :
    (runWriter { env0 with writeFails := true } cfg0
        [.dataItem dA, .endOfBatch]).2.2 = some .writeError ∧
    countEv isAcquire (runWriter { env0 with writeFails := true } cfg0
        [.dataItem dA, .endOfBatch]).2.1 = 2 ∧
    countEv isRelease (runWriter { env0 with writeFails := true } cfg0
        [.dataItem dA, .endOfBatch]).2.1 = 1 ∧
    (runWriter { env0 with writeFails := true } cfg0
        [.dataItem dA, .endOfBatch]).2.1.getLast? = some (.executeAll [dw0]) :=
  ⟨rfl, rfl, rfl, rfl⟩

/-- C4: the batch accumulator is empty at worker start; a data-item
iteration only appends to both lists; an end-of-batch iteration whose flush
does not raise clears both lists together, whether or not they hold
anything; and an end-of-batch iteration never clears partially: it leaves
the state intact or clears it completely. -/
theorem accumulator_lifecycle (env : Env) (cfg : WriterCfg) (kw : Dict) :
    (initState.data = [] ∧ initState.messages = []) ∧
    (∀ st d, ∃ nw nm, (runIteration env cfg kw st (.dataItem d)).1 =
        ⟨st.data ++ nw, st.messages ++ nm⟩) ∧
    (∀ st, (runIteration { env with writeFails := false } cfg kw st .endOfBatch).1 =
        ⟨[], []⟩) ∧
    (∀ st, (runIteration env cfg kw st .endOfBatch).1 = st ∨
        (runIteration env cfg kw st .endOfBatch).1 = ⟨[], []⟩) := by
  refine ⟨⟨rfl, rfl⟩, ?_, ?_, ?_⟩
  · intro st d
    exact ⟨_, _, runIteration_dataItem_state env cfg kw st d⟩
  · intro st
    cases h1 : st.data.isEmpty <;> simp [runIteration, h1]
  · intro st
    cases h1 : st.data.isEmpty <;> cases h2 : env.writeFails <;>
      simp [runIteration, h1, h2]

theorem countEv_lockAcq (cfg : WriterCfg) (p : Event → Bool)
    (hp : ∀ l, p (.acquire l) = false) : countEv p (lockAcq cfg) = 0 := by
  cases h : cfg.prev_lock <;> simp [lockAcq, h, countEv, List.countP_cons, hp]

theorem countEv_lockRel (cfg : WriterCfg) (p : Event → Bool)
    (hp : ∀ l, p (.release l) = false) : countEv p (lockRel cfg) = 0 := by
  cases h : cfg.prev_lock <;> simp [lockRel, h, countEv, List.countP_cons, hp]

/-- The scanner ignores a leading lock acquisition. -/
theorem noSendBeforeExec_lockAcq (cfg : WriterCfg) (evs : List Event) :
    noSendBeforeExec (lockAcq cfg ++ evs) = noSendBeforeExec evs := by
  cases h : cfg.prev_lock <;> simp [lockAcq, h, noSendBeforeExec]

/-- C2: in an end-of-batch iteration no notification is sent before the
single `executeAll` of the batch's deferred writes, data-item iterations
send nothing, and a non-empty successful flush emits exactly `executeAll`
of the accumulated writes followed by the accumulated messages. -/
theorem no_send_before_execute (env : Env) (cfg : WriterCfg) (kw : Dict)
    (st : WState) :
    noSendBeforeExec (runIteration env cfg kw st .endOfBatch).2.1 = true ∧
    (∀ d, countEv isSend (runIteration env cfg kw st (.dataItem d)).2.1 = 0) ∧
    (st.data.isEmpty = false → env.writeFails = false →
      (runIteration env cfg kw st .endOfBatch).2.1 =
        lockAcq cfg ++ .executeAll st.data :: st.messages.map .send ++ lockRel cfg) := by
  refine ⟨?_, ?_, ?_⟩
  · cases h1 : st.data.isEmpty with
    | true =>
        cases hl : cfg.prev_lock <;>
          simp [runIteration, h1, lockAcq, lockRel, hl, noSendBeforeExec]
    | false =>
        cases h2 : env.writeFails <;>
          simp [runIteration, h1, h2, noSendBeforeExec_lockAcq, noSendBeforeExec]
  · intro d
    rcases hp : processItem env kw cfg.publish_vars cfg.topic d with ⟨nw, nm, e⟩
    have hstage : countEv isSend (nw.map .stage) = 0 :=
      countEv_map_stage isSend (fun _ => rfl) nw
    have hacq : countEv isSend (lockAcq cfg) = 0 :=
      countEv_lockAcq cfg isSend (fun _ => rfl)
    have hrel : countEv isSend (lockRel cfg) = 0 :=
      countEv_lockRel cfg isSend (fun _ => rfl)
    cases e <;> simp [runIteration, hp, countEv_append, hstage, hacq, hrel]
  · intro h1 h2
    simp [runIteration, h1, h2]

theorem no_send_before_execute_witness :
    (runIteration env0 cfg0 (mkKwargs []) ⟨[dw0], [msg0]⟩ .endOfBatch).2.1 =
      lockAcq cfg0 ++ .executeAll [dw0] :: [msg0].map .send ++ lockRel cfg0 :=
  (no_send_before_execute env0 cfg0 (mkKwargs []) ⟨[dw0], [msg0]⟩).2.2 rfl rfl

/-- Running `stageOne` with no topic template equals `stageOne` with one, except
that no message is produced. -/
theorem stageOne_none_eq (env : Env) (kw : Dict) (pv : List (String × String))
    (scnMeta : Dict) (entry : SceneEntry) (prod pn : String)
    (writers : List String) (j : Nat) (f t : String) :
    stageOne env kw pv none scnMeta entry prod pn writers j f =
      match stageOne env kw pv (some t) scnMeta entry prod pn writers j f with
      | .error x => .error x
      | .ok (dw, _) => .ok (dw, none) := by
  unfold stageOne
  cases hw : writers.get? j with
  | none => rfl
  | some w =>
      cases hst : lookupA scnMeta "start_time" with
      | none => rfl
      | some stv => rfl

/-- Running `stagePairs` with no topic template stages the same writes and fails
the same way as with one, but records no messages. -/
theorem stagePairs_none_eq (env : Env) (kw : Dict) (pv : List (String × String))
    (scnMeta : Dict) (entry : SceneEntry) (prod pn : String)
    (writers : List String) (t : String) :
    ∀ (fnames : List String) (j : Nat),
      stagePairs env kw pv none scnMeta entry prod pn writers fnames j =
        ((stagePairs env kw pv (some t) scnMeta entry prod pn writers fnames j).1, [],
         (stagePairs env kw pv (some t) scnMeta entry prod pn writers fnames j).2.2) := by
  intro fnames
  induction fnames with
  | nil => intro j; rfl
  | cons f rest ih =>
      intro j
      simp only [stagePairs]
      rw [stageOne_none_eq env kw pv scnMeta entry prod pn writers j f t]
      cases hS : stageOne env kw pv (some t) scnMeta entry prod pn writers j f with
      | error x => rfl
      | ok y =>
          rcases y with ⟨dw, mo⟩
          rcases hQ : stagePairs env kw pv (some t) scnMeta entry prod pn writers
            rest (j + 1) with ⟨qw, qm, qe⟩
          have ih' := ih (j + 1)
          rw [hQ] at ih'
          simp [ih', hQ]

/-- Running `processProds` with no topic template: same writes, same error, no
messages. -/
theorem processProds_none_eq (env : Env) (kw : Dict) (pv : List (String × String))
    (scene : Scene) (scnMeta : Dict) (pcfg : ProductConfig) (t : String) :
    ∀ ps, processProds env kw pv none scene scnMeta pcfg ps =
      ((processProds env kw pv (some t) scene scnMeta pcfg ps).1, [],
       (processProds env kw pv (some t) scene scnMeta pcfg ps).2.2) := by
  intro ps
  induction ps with
  | nil => rfl
  | cons prod rest ih =>
      by_cases hc : (scene.composites.map Prod.fst).contains prod
      · cases ha : lookupA scnMeta "area_id" with
        | none =>
            simp only [processProds]
            rw [hc, ha]
            rfl
        | some aid =>
            simp only [processProds, hc, if_true, ha]
            rw [stagePairs_none_eq env kw pv scnMeta
              ((scene.composites.lookup prod).getD ⟨none⟩) prod
              (env.createFnames scnMeta pcfg prod).2
              (env.getWriterNames pcfg prod aid) t]
            rcases hP : stagePairs env kw pv (some t) scnMeta
                ((scene.composites.lookup prod).getD ⟨none⟩) prod
                (env.createFnames scnMeta pcfg prod).2
                (env.getWriterNames pcfg prod aid)
                (env.createFnames scnMeta pcfg prod).1 0 with ⟨ws, ms, e⟩
            cases e with
            | some err => rfl
            | none =>
                rcases hR : processProds env kw pv (some t) scene scnMeta pcfg rest
                  with ⟨rw', rm', re'⟩
                rw [hR] at ih
                simp [ih, hR]
      · simp only [processProds, hc, if_false, Bool.false_eq_true]
        exact ih

/-- Running `_process` with no topic template records no messages. -/
theorem processItem_none_msgs (env : Env) (kw : Dict) (pv : List (String × String))
    (d : DataPayload) : (processItem env kw pv none d).2.1 = [] := by
  rw [processItem, processProds_none_eq env kw pv d.scene d.scene.attrs
    d.product_config "" d.products]

/-- A data-item iteration with no topic template leaves `messages` empty and
sends nothing; an end-of-batch iteration with empty `messages` sends
nothing. -/
theorem runIteration_none_topic_no_send (env : Env) (cfg : WriterCfg) (kw : Dict)
    (st : WState) (it : WorkItem) (hm : st.messages = []) :
    countEv isSend (runIteration env { cfg with topic := none } kw st it).2.1 = 0 ∧
    (runIteration env { cfg with topic := none } kw st it).1.messages = [] := by
  cases it with
  | endOfBatch =>
      cases h1 : st.data.isEmpty <;> cases h2 : env.writeFails <;>
        cases hl : cfg.prev_lock <;>
        simp [runIteration, h1, h2, hm, lockAcq, lockRel, hl, countEv,
          List.countP_cons, List.countP_append, isSend]
  | dataItem d =>
      rcases hp : processItem env kw cfg.publish_vars none d with ⟨nw, nm, e⟩
      have hnm : nm = [] := by
        have h' := processItem_none_msgs env kw cfg.publish_vars d
        rw [hp] at h'; exact h'
      have hstage : countEv isSend (nw.map .stage) = 0 :=
        countEv_map_stage isSend (fun _ => rfl) nw
      cases e <;> cases hl : cfg.prev_lock <;>
        simp [runIteration, hp, hnm, hm, lockAcq, lockRel, hl, countEv,
          List.countP_cons, List.countP_append, isSend]

/-- A whole run with no topic template sends nothing. -/
theorem runLoop_none_topic_no_send (env : Env) (cfg : WriterCfg) (kw : Dict) :
    ∀ (items : List WorkItem) (st : WState), st.messages = [] →
      countEv isSend (runLoop env { cfg with topic := none } kw st items).2.1 = 0 := by
  intro items
  induction items with
  | nil => intro st _; rfl
  | cons it rest ih =>
      intro st hm
      rcases hI : runIteration env { cfg with topic := none } kw st it
        with ⟨st', evs, e⟩
      have h0 := runIteration_none_topic_no_send env cfg kw st it hm
      rw [hI] at h0
      cases e with
      | some err => simp [runLoop, hI, h0.1]
      | none =>
          rcases hR : runLoop env { cfg with topic := none } kw st' rest
            with ⟨st'', evs', e'⟩
          have h1 := ih st' h0.2
          rw [hR] at h1
          simp [runLoop, hI, hR, countEv_append, h0.1, h1]

/-- C7: with no topic template configured, processing a data item records no
pending message while staging exactly the deferred writes it would stage
with a topic; no run ever sends a notification; and a concrete flush still
executes the staged writes while sending nothing. -/
theorem no_topic_no_messages :
    (∀ (env : Env) (kw : Dict) (pv : List (String × String)) (d : DataPayload),
        (processItem env kw pv none d).2.1 = []) ∧
    (∀ (env : Env) (kw : Dict) (pv : List (String × String)) (d : DataPayload)
        (t : String),
        (processItem env kw pv none d).1 = (processItem env kw pv (some t) d).1) ∧
    (∀ (env : Env) (cfg : WriterCfg) (kw : Dict) (items : List WorkItem),
        countEv isSend
          (runLoop env { cfg with topic := none } kw initState items).2.1 = 0) ∧
    (runWriter env0 { cfg0 with topic := none } [.dataItem dA, .endOfBatch]).2.1 =
      [.acquire "L", .stage dw0, .release "L",
       .acquire "L", .executeAll [dw0], .release "L"] := by
  refine ⟨processItem_none_msgs, ?_, ?_, rfl⟩
  · intro env kw pv d t
    simp only [processItem]
    rw [processProds_none_eq env kw pv d.scene d.scene.attrs
      d.product_config t d.products]
  · intro env cfg kw items
    exact runLoop_none_topic_no_send env cfg kw items initState rfl

/-- C9: with `use_lock = False`, the `prev_lock` setter changes neither the
container's stored lock nor the writer's `prev_lock` field; the writer is
constructed with the class-level default `None`, and a worker whose
`prev_lock` is `None` never acquires or releases any lock. -/
theorem use_lock_false_noop :
    (∀ (c : Container) (lock : Option String),
        setPrevLock { c with use_lock := false } lock = { c with use_lock := false }) ∧
    (mkContainer false).container_lock = none ∧
    (mkContainer false).writer_prev_lock = none ∧
    (∀ (env : Env) (cfg : WriterCfg) (kw : Dict) (items : List WorkItem) (st : WState),
        countEv isAcquire
          (runLoop env { cfg with prev_lock := none } kw st items).2.1 = 0 ∧
        countEv isRelease
          (runLoop env { cfg with prev_lock := none } kw st items).2.1 = 0) := by
  refine ⟨?_, rfl, rfl, ?_⟩
  · intro c lock; simp [setPrevLock]
  · intro env cfg kw items st
    constructor
    · exact runLoop_no_lock_events env cfg kw isAcquire
        (fun _ => rfl) (fun _ => rfl) (fun _ => rfl) items st
    · exact runLoop_no_lock_events env cfg kw isRelease
        (fun _ => rfl) (fun _ => rfl) (fun _ => rfl) items st

/-- Every deferred write produced by `stageOne` — on the success side or
already staged on the error side — carries exactly the `kwargs` it was
given as its options. -/
theorem stageOne_options (env : Env) (kw : Dict) (pv : List (String × String))
    (topic : Option String) (scnMeta : Dict) (entry : SceneEntry)
    (prod pn : String) (writers : List String) (j : Nat) (f : String) :
    (∀ x, stageOne env kw pv topic scnMeta entry prod pn writers j f = .error x →
        ∀ w ∈ x.1, w.options = kw) ∧
    (∀ dw mo, stageOne env kw pv topic scnMeta entry prod pn writers j f =
        .ok (dw, mo) → dw.options = kw) := by
  unfold stageOne
  cases hw : writers.get? j with
  | none =>
      refine ⟨?_, ?_⟩
      · intro x hx w hwmem
        simp only [Except.error.injEq] at hx
        subst hx
        simp at hwmem
      · intro dw mo h
        simp at h
  | some w =>
      cases hst : lookupA scnMeta "start_time" with
      | none =>
          refine ⟨?_, ?_⟩
          · intro x hx w' hwmem
            simp only [Except.error.injEq] at hx
            subst hx
            simp at hwmem
            subst hwmem
            rfl
          · intro dw mo h
            simp at h
      | some stv =>
          cases topic with
          | none =>
              refine ⟨?_, ?_⟩
              · intro x hx; simp at hx
              · intro dw mo h
                simp only [Except.ok.injEq, Prod.mk.injEq] at h
                rw [← h.1]
          | some t =>
              refine ⟨?_, ?_⟩
              · intro x hx; simp at hx
              · intro dw mo h
                simp only [Except.ok.injEq, Prod.mk.injEq] at h
                rw [← h.1]

/-- Every deferred write staged by the inner filename loop carries the given
`kwargs`. -/
theorem stagePairs_options (env : Env) (kw : Dict) (pv : List (String × String))
    (topic : Option String) (scnMeta : Dict) (entry : SceneEntry)
    (prod pn : String) (writers : List String) :
    ∀ (fnames : List String) (j : Nat) w,
      w ∈ (stagePairs env kw pv topic scnMeta entry prod pn writers fnames j).1 →
      w.options = kw := by
  intro fnames
  induction fnames with
  | nil => intro j w h; simp [stagePairs] at h
  | cons f rest ih =>
      intro j w h
      rcases hS : stageOne env kw pv topic scnMeta entry prod pn writers j f with x | y
      · rw [stagePairs, hS] at h
        exact (stageOne_options env kw pv topic scnMeta entry prod pn writers j f).1
          x hS w h
      · rcases y with ⟨dw, mo⟩
        rcases hQ : stagePairs env kw pv topic scnMeta entry prod pn writers
          rest (j + 1) with ⟨qw, qm, qe⟩
        rw [stagePairs, hS, hQ] at h
        simp at h
        rcases h with rfl | h
        · exact (stageOne_options env kw pv topic scnMeta entry prod pn writers
            j f).2 w mo hS
        · have h' := ih (j + 1) w
          rw [hQ] at h'
          exact h' h

/-- Every deferred write staged by the product loop carries the given
`kwargs`. -/
theorem processProds_options (env : Env) (kw : Dict) (pv : List (String × String))
    (topic : Option String) (scene : Scene) (scnMeta : Dict)
    (pcfg : ProductConfig) :
    ∀ (ps : List String) w,
      w ∈ (processProds env kw pv topic scene scnMeta pcfg ps).1 →
      w.options = kw := by
  intro ps
  induction ps with
  | nil => intro w h; simp [processProds] at h
  | cons prod rest ih =>
      intro w h
      by_cases hc : (scene.composites.map Prod.fst).contains prod
      · cases ha : lookupA scnMeta "area_id" with
        | none =>
            simp only [processProds] at h
            rw [hc, ha] at h
            simp at h
        | some aid =>
            simp only [processProds, hc, if_true, ha] at h
            rcases hP : stagePairs env kw pv topic scnMeta
                ((scene.composites.lookup prod).getD ⟨none⟩) prod
                (env.createFnames scnMeta pcfg prod).2
                (env.getWriterNames pcfg prod aid)
                (env.createFnames scnMeta pcfg prod).1 0 with ⟨ws, ms, e⟩
            have hws : ∀ w' ∈ ws, w'.options = kw := by
              intro w' hw'
              have h' := stagePairs_options env kw pv topic scnMeta
                ((scene.composites.lookup prod).getD ⟨none⟩) prod
                (env.createFnames scnMeta pcfg prod).2
                (env.getWriterNames pcfg prod aid)
                (env.createFnames scnMeta pcfg prod).1 0 w'
              rw [hP] at h'
              exact h' hw'
            rw [hP] at h
            cases e with
            | some err => exact hws w h
            | none =>
                simp at h
                rcases h with h | h
                · exact hws w h
                · exact ih w h
      · simp only [processProds, hc, if_false, Bool.false_eq_true] at h
        exact ih w h

/-- C5: the five recognized save-settings options are the exact keys of the
`kwargs` dictionary built in `run`; any option present in the save-settings
keeps its value verbatim there; and every deferred write staged by
`_process` carries exactly that dictionary as its options. -/
theorem save_settings_passthrough (env : Env) (s : Dict)
    (pv : List (String × String)) (topic : Option String) (d : DataPayload) :
    (mkKwargs s).map Prod.fst =
      ["compression", "tags", "fformat", "gdal_options", "blocksize"] ∧
    (∀ k v, k ∈ ["compression", "tags", "fformat", "gdal_options", "blocksize"] →
        lookupA s k = some v → lookupA (mkKwargs s) k = some v) ∧
    (∀ w, w ∈ (processItem env (mkKwargs s) pv topic d).1 →
        w.options = mkKwargs s) := by
  refine ⟨rfl, ?_, ?_⟩
  · intro k v hk hv
    simp only [List.mem_cons, List.not_mem_nil, or_false] at hk
    rcases hk with rfl | rfl | rfl | rfl | rfl <;> simp [mkKwargs, lookupA, hv]
  · intro w hw
    exact processProds_options env (mkKwargs s) pv topic d.scene d.scene.attrs
      d.product_config d.products w hw

theorem save_settings_passthrough_witness :
    lookupA (mkKwargs [("compression", .pyInt 9)]) "compression" =
      some (.pyInt 9) :=
  (save_settings_passthrough env0 [("compression", .pyInt 9)] [] none dA).2.1
    "compression" (.pyInt 9) (by simp) rfl

/-- C6: a configured product that is not among the scene's composite names
contributes nothing to `_process` — dropping it from the product list leaves
the result (writes, messages, error) unchanged — and in particular two data
items for products `"A"` and `"B"`, of which only `"A"` exists in the scene,
accumulate exactly one deferred write and one pending message, for `"A"`. -/
theorem absent_product_skipped :
    (∀ (env : Env) (kw : Dict) (pv : List (String × String))
        (topic : Option String) (scene : Scene) (scnMeta : Dict)
        (pcfg : ProductConfig) (p : String) (l₁ l₂ : List String),
        (scene.composites.map Prod.fst).contains p = false →
        processProds env kw pv topic scene scnMeta pcfg (l₁ ++ p :: l₂) =
          processProds env kw pv topic scene scnMeta pcfg (l₁ ++ l₂)) ∧
    ((runLoop env0 cfg0 (mkKwargs []) initState
        [.dataItem dA, .dataItem dB]).1.data.map DeferredWrite.datasets =
      [["A"]]) ∧
    ((runLoop env0 cfg0 (mkKwargs []) initState
        [.dataItem dA, .dataItem dB]).1.messages.map
          (fun m => lookupA m.payload "productname") = [some (.pyStr "A")]) := by
  refine ⟨?_, rfl, rfl⟩
  intro env kw pv topic scene scnMeta pcfg p l₁ l₂ hp
  induction l₁ with
  | nil =>
      simp only [List.nil_append, processProds]
      rw [hp]
      rfl
  | cons q rest ih =>
      simp only [List.cons_append, processProds]
      have ih' : processProds env kw pv topic scene scnMeta pcfg
          (rest.append (p :: l₂)) =
          processProds env kw pv topic scene scnMeta pcfg (rest.append l₂) := ih
      rw [ih']

theorem absent_product_skipped_witness :
    processProds env0 (mkKwargs []) [] (some "tpl/{area_id}") sceneA
        sceneA.attrs "pc" ["A", "B"] =
      processProds env0 (mkKwargs []) [] (some "tpl/{area_id}") sceneA
        sceneA.attrs "pc" ["A"] :=
  absent_product_skipped.1 env0 (mkKwargs []) [] (some "tpl/{area_id}") sceneA
    sceneA.attrs "pc" "B" ["A"] [] rfl

/-- C8: a (product, filename) pair whose scene entry lacks spatial-area
attributes (reading them raises `AttributeError`) produces a pending
message whose topic is composed with the fallback `{'area_id': 'satproj'}`
and whose payload carries `area = None`. -/
theorem missing_area_fallback (env : Env) (kw : Dict)
    (pv : List (String × String)) (scnMeta : Dict) (entry : SceneEntry)
    (prod pn : String) (writers : List String) (j : Nat) (fname t w : String)
    (stv : PyVal)
    (hw : writers.get? j = some w)
    (hst : lookupA scnMeta "start_time" = some stv)
    (ha : entry.area = none) :
    ∃ msg, stageOne env kw pv (some t) scnMeta entry prod pn writers j fname =
        .ok (⟨[prod], fname, w, false, kw⟩, some msg) ∧
      msg.composeArgs = [("area_id", .pyStr "satproj")] ∧
      lookupA msg.payload "area" = some .pyNone := by
  refine ⟨⟨t, composeArgOf none, "file",
    buildPayload env pv scnMeta none fname pn stv⟩, ?_, rfl, ?_⟩
  · unfold stageOne
    rw [hw, hst, ha]
  · simp [buildPayload, dictUpdate, lookupA, areaVal]

theorem missing_area_fallback_witness :
    ∃ msg, stageOne env0 (mkKwargs []) [] (some "tpl/{area_id}") sceneA.attrs
        ⟨none⟩ "A" "A" ["geotiff"] 0 "/data/A.tif" =
        .ok (⟨["A"], "/data/A.tif", "geotiff", false, mkKwargs []⟩, some msg) ∧
      msg.composeArgs = [("area_id", .pyStr "satproj")] ∧
      lookupA msg.payload "area" = some .pyNone :=
  missing_area_fallback env0 (mkKwargs []) [] sceneA.attrs ⟨none⟩ "A" "A"
    ["geotiff"] 0 "/data/A.tif" "tpl/{area_id}" "geotiff" (.pyStr "t0")
    rfl rfl rfl

/-- C10: in every pending message payload, the fixed fields `nominal_time`,
`uid`, `uri`, `area` and `productname` hold the values computed from the
scene metadata and filename, whatever the configured metadata subset
selected into the payload (the fixed map is merged last, so it wins). -/
theorem fixed_fields_override (env : Env) (kw : Dict)
    (pv : List (String × String)) (scnMeta : Dict) (entry : SceneEntry)
    (prod pn : String) (writers : List String) (j : Nat) (fname t : String)
    (dw : DeferredWrite) (msg : Msg)
    (h : stageOne env kw pv (some t) scnMeta entry prod pn writers j fname =
        .ok (dw, some msg)) :
    lookupA msg.payload "nominal_time" = lookupA scnMeta "start_time" ∧
    lookupA msg.payload "uid" = some (.pyStr (env.basename fname)) ∧
    lookupA msg.payload "uri" = some (.pyStr (env.abspath fname)) ∧
    lookupA msg.payload "area" = some (areaVal entry.area) ∧
    lookupA msg.payload "productname" = some (.pyStr pn) := by
  unfold stageOne at h
  cases hw : writers.get? j with
  | none => rw [hw] at h; simp at h
  | some w =>
      rw [hw] at h
      cases hst : lookupA scnMeta "start_time" with
      | none => rw [hst] at h; simp at h
      | some stv =>
          rw [hst] at h
          simp only [Except.ok.injEq, Prod.mk.injEq, Option.some.injEq] at h
          rw [← h.2]
          simp [buildPayload, dictUpdate, lookupA]

theorem countEv_map_stage_len (ws : List DeferredWrite) :
    countEv isStage (ws.map .stage) = ws.length := by
  induction ws with
  | nil => rfl
  | cons w rest ih => simp [countEv, List.countP_cons, isStage] at ih ⊢; exact ih

theorem countEv_map_send_len (ms : List Msg) :
    countEv isSend (ms.map .send) = ms.length := by
  induction ms with
  | nil => rfl
  | cons m rest ih => simp [countEv, List.countP_cons, isSend] at ih ⊢; exact ih

/-- A successful `stageOne` under a configured topic always records a
message. -/
theorem stageOne_some_msg (env : Env) (kw : Dict) (pv : List (String × String))
    (t : String) (scnMeta : Dict) (entry : SceneEntry) (prod pn : String)
    (writers : List String) (j : Nat) (f : String) (dw : DeferredWrite)
    (mo : Option Msg)
    (h : stageOne env kw pv (some t) scnMeta entry prod pn writers j f =
        .ok (dw, mo)) : ∃ m, mo = some m := by
  unfold stageOne at h
  cases hw : writers.get? j with
  | none => rw [hw] at h; simp at h
  | some w =>
      rw [hw] at h
      cases hst : lookupA scnMeta "start_time" with
      | none => rw [hst] at h; simp at h
      | some stv =>
          rw [hst] at h
          simp only [Except.ok.injEq, Prod.mk.injEq] at h
          exact ⟨_, h.2.symm⟩

/-- Under a configured topic, an error-free inner loop records exactly one
message per staged write. -/
theorem stagePairs_some_len (env : Env) (kw : Dict) (pv : List (String × String))
    (t : String) (scnMeta : Dict) (entry : SceneEntry) (prod pn : String)
    (writers : List String) :
    ∀ (fnames : List String) (j : Nat) ws ms,
      stagePairs env kw pv (some t) scnMeta entry prod pn writers fnames j =
        (ws, ms, none) → ms.length = ws.length := by
  intro fnames
  induction fnames with
  | nil =>
      intro j ws ms h
      simp only [stagePairs, Prod.mk.injEq] at h
      rw [← h.1, ← h.2.1]
      rfl
  | cons f rest ih =>
      intro j ws ms h
      rcases hS : stageOne env kw pv (some t) scnMeta entry prod pn writers j f
        with x | y
      · rw [stagePairs, hS] at h
        simp at h
      · rcases y with ⟨dw, mo⟩
        rcases hQ : stagePairs env kw pv (some t) scnMeta entry prod pn writers
          rest (j + 1) with ⟨qw, qm, qe⟩
        rw [stagePairs, hS, hQ] at h
        simp only [Prod.mk.injEq] at h
        obtain ⟨m, rfl⟩ := stageOne_some_msg env kw pv t scnMeta entry prod pn
          writers j f dw mo hS
        rcases h with ⟨hws, hms, hqe⟩
        have hq := ih (j + 1) qw qm
        rw [hQ, ← hqe] at hq
        rw [← hws, ← hms]
        simp [hq rfl]

/-- Under a configured topic, an error-free product loop records exactly one
message per staged write. -/
theorem processProds_some_len (env : Env) (kw : Dict) (pv : List (String × String))
    (t : String) (scene : Scene) (scnMeta : Dict) (pcfg : ProductConfig) :
    ∀ (ps : List String) ws ms,
      processProds env kw pv (some t) scene scnMeta pcfg ps = (ws, ms, none) →
      ms.length = ws.length := by
  intro ps
  induction ps with
  | nil =>
      intro ws ms h
      simp only [processProds, Prod.mk.injEq] at h
      rw [← h.1, ← h.2.1]
      rfl
  | cons prod rest ih =>
      intro ws ms h
      by_cases hc : (scene.composites.map Prod.fst).contains prod
      · cases ha : lookupA scnMeta "area_id" with
        | none =>
            simp only [processProds] at h
            rw [hc, ha] at h
            simp at h
        | some aid =>
            simp only [processProds, hc, if_true, ha] at h
            rcases hP : stagePairs env kw pv (some t) scnMeta
                ((scene.composites.lookup prod).getD ⟨none⟩) prod
                (env.createFnames scnMeta pcfg prod).2
                (env.getWriterNames pcfg prod aid)
                (env.createFnames scnMeta pcfg prod).1 0 with ⟨ws₀, ms₀, e₀⟩
            rw [hP] at h
            cases e₀ with
            | some err => simp at h
            | none =>
                rcases hR : processProds env kw pv (some t) scene scnMeta pcfg
                  rest with ⟨rw', rm', re'⟩
                rw [hR] at h
                simp only [Prod.mk.injEq] at h
                rcases h with ⟨hws, hms, hre⟩
                have h₀ := stagePairs_some_len env kw pv t scnMeta
                  ((scene.composites.lookup prod).getD ⟨none⟩) prod
                  (env.createFnames scnMeta pcfg prod).2
                  (env.getWriterNames pcfg prod aid)
                  (env.createFnames scnMeta pcfg prod).1 0 ws₀ ms₀ hP
                have h₁ := ih rw' rm'
                rw [hR, ← hre] at h₁
                rw [← hws, ← hms]
                simp [h₀, h₁ rfl]
      · simp only [processProds, hc, if_false, Bool.false_eq_true] at h
        exact ih ws ms h

/-- Under a configured topic, error-free `_process` records exactly one
message per staged write. -/
theorem processItem_some_len (env : Env) (kw : Dict) (pv : List (String × String))
    (t : String) (d : DataPayload) (ws : List DeferredWrite) (ms : List Msg)
    (h : processItem env kw pv (some t) d = (ws, ms, none)) :
    ms.length = ws.length :=
  processProds_some_len env kw pv t d.scene d.scene.attrs d.product_config
    d.products ws ms h

/-- Per-iteration count invariant: under a configured topic, a non-raising
iteration preserves `messages.length = data.length` and the balance
`stages emitted + data before = sends emitted + data after`. -/
theorem runIteration_balance (env : Env) (cfg : WriterCfg) (kw : Dict)
    (t : String) (hcfg : cfg.topic = some t) (st : WState) (it : WorkItem)
    (st' : WState) (evs : List Event)
    (hm : st.messages.length = st.data.length)
    (h : runIteration env cfg kw st it = (st', evs, none)) :
    st'.messages.length = st'.data.length ∧
    countEv isStage evs + st.data.length = countEv isSend evs + st'.data.length := by
  have hAs : countEv isStage (lockAcq cfg) = 0 :=
    countEv_lockAcq cfg isStage (fun _ => rfl)
  have hRs : countEv isStage (lockRel cfg) = 0 :=
    countEv_lockRel cfg isStage (fun _ => rfl)
  have hAd : countEv isSend (lockAcq cfg) = 0 :=
    countEv_lockAcq cfg isSend (fun _ => rfl)
  have hRd : countEv isSend (lockRel cfg) = 0 :=
    countEv_lockRel cfg isSend (fun _ => rfl)
  cases it with
  | endOfBatch =>
      cases h1 : st.data.isEmpty with
      | true =>
          rw [runIteration] at h
          rw [h1] at h
          simp only [if_true, Prod.mk.injEq] at h
          rcases h with ⟨hst', hevs, -⟩
          have hd : st.data = [] := List.isEmpty_iff.mp h1
          rw [← hst', ← hevs]
          simp [countEv_append, hAs, hRs, hAd, hRd, hd]
      | false =>
          cases h2 : env.writeFails with
          | true =>
              rw [runIteration] at h
              rw [h1, h2] at h
              simp at h
          | false =>
              rw [runIteration] at h
              rw [h1, h2] at h
              simp only [Bool.false_eq_true, if_false, Prod.mk.injEq] at h
              rcases h with ⟨hst', hevs, -⟩
              have hsends : countEv isSend (st.messages.map .send) =
                  st.messages.length := countEv_map_send_len st.messages
              have hstg : countEv isStage (st.messages.map .send) = 0 :=
                countEv_map_send isStage (fun _ => rfl) st.messages
              rw [← hst', ← hevs]
              refine ⟨rfl, ?_⟩
              simp only [countEv_append, countEv_cons, hAs, hRs, hAd, hRd,
                hsends, hstg, isStage, isSend]
              simp
              omega
  | dataItem d =>
      rcases hp : processItem env kw cfg.publish_vars cfg.topic d with ⟨nw, nm, e⟩
      cases e with
      | some err => rw [runIteration, hp] at h; simp at h
      | none =>
          rw [runIteration, hp] at h
          simp only [Prod.mk.injEq] at h
          rcases h with ⟨hst', hevs, -⟩
          rw [hcfg] at hp
          have hlen := processItem_some_len env kw cfg.publish_vars t d nw nm hp
          rw [← hst', ← hevs]
          have h₁ : countEv isStage (nw.map .stage) = nw.length :=
            countEv_map_stage_len nw
          have h₂ : countEv isSend (nw.map .stage) = 0 :=
            countEv_map_stage isSend (fun _ => rfl) nw
          simp [countEv_append, hAs, hRs, hAd, hRd, h₁, h₂, hlen, hm]
          omega

/-- Whole-run count invariant for error-free runs under a configured
topic. -/
theorem runLoop_balance (env : Env) (cfg : WriterCfg) (kw : Dict) (t : String)
    (hcfg : cfg.topic = some t) :
    ∀ (items : List WorkItem) (st st' : WState) (evs : List Event),
      runLoop env cfg kw st items = (st', evs, none) →
      st.messages.length = st.data.length →
      st'.messages.length = st'.data.length ∧
      countEv isStage evs + st.data.length =
        countEv isSend evs + st'.data.length := by
  intro items
  induction items with
  | nil =>
      intro st st' evs h hm
      simp only [runLoop, Prod.mk.injEq] at h
      rcases h with ⟨hst', hevs, -⟩
      rw [← hst', ← hevs]
      exact ⟨hm, rfl⟩
  | cons it rest ih =>
      intro st st' evs h hm
      rcases hI : runIteration env cfg kw st it with ⟨st1, evs1, e1⟩
      cases e1 with
      | some err => rw [runLoop, hI] at h; simp at h
      | none =>
          rcases hR : runLoop env cfg kw st1 rest with ⟨st2, evs2, e2⟩
          simp only [runLoop, hI, hR, Prod.mk.injEq] at h
          rcases h with ⟨hst', hevs, he⟩
          have hb1 := runIteration_balance env cfg kw t hcfg st it st1 evs1 hm hI
          have hb2 := ih st1 st2 evs2 (by rw [hR, ← he]) hb1.1
          rw [← hst', ← hevs]
          refine ⟨hb2.1, ?_⟩
          rw [countEv_append, countEv_append]
          omega

/-- A non-raising end-of-batch iteration always clears the accumulator. -/
theorem runIteration_flush_ok (env : Env) (cfg : WriterCfg) (kw : Dict)
    (st st' : WState) (evs : List Event)
    (h : runIteration env cfg kw st .endOfBatch = (st', evs, none)) :
    st' = ⟨[], []⟩ := by
  cases h1 : st.data.isEmpty with
  | true =>
      rw [runIteration, h1] at h
      simp only [if_true, Prod.mk.injEq] at h
      exact h.1.symm
  | false =>
      cases h2 : env.writeFails with
      | true => rw [runIteration, h1, h2] at h; simp at h
      | false =>
          rw [runIteration, h1, h2] at h
          simp only [Bool.false_eq_true, if_false, Prod.mk.injEq] at h
          exact h.1.symm

/-- An error-free run whose last item is the end-of-batch sentinel ends with
an empty accumulator. -/
theorem runLoop_last_flush (env : Env) (cfg : WriterCfg) (kw : Dict) :
    ∀ (ds : List WorkItem) (st st' : WState) (evs : List Event),
      runLoop env cfg kw st (ds ++ [.endOfBatch]) = (st', evs, none) →
      st' = ⟨[], []⟩ := by
  intro ds
  induction ds with
  | nil =>
      intro st st' evs h
      rcases hI : runIteration env cfg kw st .endOfBatch with ⟨st1, evs1, e1⟩
      cases e1 with
      | some err => simp only [List.nil_append, runLoop, hI] at h; simp at h
      | none =>
          simp only [List.nil_append, runLoop, hI, Prod.mk.injEq] at h
          rw [← h.1]
          exact runIteration_flush_ok env cfg kw st st1 evs1 hI
  | cons it rest ih =>
      intro st st' evs h
      rcases hI : runIteration env cfg kw st it with ⟨st1, evs1, e1⟩
      cases e1 with
      | some err => simp only [List.cons_append, runLoop, hI] at h; simp at h
      | none =>
          rcases hR : runLoop env cfg kw st1 (rest ++ [.endOfBatch])
            with ⟨st2, evs2, e2⟩
          have hR' : runLoop env cfg kw st1
              (rest.append [WorkItem.endOfBatch]) = (st2, evs2, e2) := hR
          simp only [List.cons_append, runLoop, hI, hR, hR', Prod.mk.injEq] at h
          rw [← h.1]
          exact ih st1 st2 evs2 (by rw [hR, ← h.2.2])

/-- C3 counterexample: with no topic template configured, a batch that
stages one deferred write sends zero notifications at flush, so the number
of notifications sent does not equal the number of staged pairs. -/
theorem notification_count_mismatch_no_topic :
    countEv isStage (runWriter env0 { cfg0 with topic := none }
        [.dataItem dA, .endOfBatch]).2.1 = 1 ∧
    countEv isSend (runWriter env0 { cfg0 with topic := none }
        [.dataItem dA, .endOfBatch]).2.1 = 0 ∧
    countEv isSend (runWriter env0 { cfg0 with topic := none }
        [.dataItem dA, .endOfBatch]).2.1 ≠
      countEv isStage (runWriter env0 { cfg0 with topic := none }
        [.dataItem dA, .endOfBatch]).2.1 := by
  refine ⟨rfl, rfl, ?_⟩
  intro h
  rw [show countEv isSend (runWriter env0 { cfg0 with topic := none }
        [.dataItem dA, .endOfBatch]).2.1 = 0 from rfl,
      show countEv isStage (runWriter env0 { cfg0 with topic := none }
        [.dataItem dA, .endOfBatch]).2.1 = 1 from rfl] at h
  exact absurd h (by decide)

/-- C3 amended: when a topic template is configured and the run of one batch
(data items then the sentinel) raises no exception, the number of
notifications sent equals the number of (product, filename) pairs staged;
products absent from the scene contribute zero. -/
theorem send_count_eq_stage_count_with_topic (env : Env) (cfg : WriterCfg)
    (t : String) (ds : List DataPayload) (st' : WState) (evs : List Event)
    (hcfg : cfg.topic = some t)
    (h : runWriter env cfg (ds.map WorkItem.dataItem ++ [.endOfBatch]) =
        (st', evs, none)) :
    countEv isSend evs = countEv isStage evs := by
  have h' : runLoop env cfg (mkKwargs cfg.save_settings) initState
      (ds.map WorkItem.dataItem ++ [.endOfBatch]) = (st', evs, none) := h
  have hb := runLoop_balance env cfg (mkKwargs cfg.save_settings) t hcfg
    (ds.map WorkItem.dataItem ++ [.endOfBatch]) initState st' evs h' rfl
  have hf := runLoop_last_flush env cfg (mkKwargs cfg.save_settings)
    (ds.map WorkItem.dataItem) initState st' evs h'
  have hd : st'.data.length = 0 := by rw [hf]; rfl
  have := hb.2
  rw [hd] at this
  simpa [initState] using this.symm

theorem send_count_eq_stage_count_with_topic_witness :
    countEv isSend (runWriter env0 cfg0
        ([dA].map WorkItem.dataItem ++ [.endOfBatch])).2.1 =
      countEv isStage (runWriter env0 cfg0
        ([dA].map WorkItem.dataItem ++ [.endOfBatch])).2.1 :=
  send_count_eq_stage_count_with_topic env0 cfg0 "tpl/{area_id}" [dA]
    (runWriter env0 cfg0 ([dA].map WorkItem.dataItem ++ [.endOfBatch])).1
    (runWriter env0 cfg0 ([dA].map WorkItem.dataItem ++ [.endOfBatch])).2.1
    rfl rfl

theorem fixed_fields_override_witness :
    lookupA msg0.payload "nominal_time" = lookupA sceneA.attrs "start_time" ∧
    lookupA msg0.payload "uid" = some (.pyStr (env0.basename "/data/A.tif")) ∧
    lookupA msg0.payload "uri" = some (.pyStr (env0.abspath "/data/A.tif")) ∧
    lookupA msg0.payload "area" = some (areaVal (SceneEntry.mk none).area) ∧
    lookupA msg0.payload "productname" = some (.pyStr "A") :=
  fixed_fields_override env0 (mkKwargs []) [] sceneA.attrs ⟨none⟩ "A" "A"
    ["geotiff"] 0 "/data/A.tif" "tpl/{area_id}" dw0 msg0 rfl

end SatpyWriter
